import Mathlib

/-!
# Hint/Exercise gateway: a shallow embedding of `src/index.js`

The four POST handlers of `src/index.js` are embedded as pure functions of

* the request body (a JSON value, as produced by `express.json()`),
* the upstream completion call `openai.responses.create`, a function from the
  request parameters to an outcome (it throws, or it returns a response whose
  `output_text` is absent or a string),
* a `Host`, the library functions of the JavaScript runtime whose tables are
  not part of this repository (`JSON.parse`, `JSON.stringify`,
  `Number::toString`, `String.prototype.toUpperCase`).

JavaScript strings are sequences of UTF-16 code units, so `charAt(0)` is the
first code unit.  A hint handler returns `none` when its promise rejects
without the handler having sent a response.  In an exercise request `count` is
an integer when present, as in the `ExerciseRequest` shape.
-/

namespace Gateway

/-! ## JavaScript strings -/

/-- A JavaScript string: its UTF-16 code units. -/
abbrev JSString := List Nat

/-- UTF-16 encoding of a string literal of the source. -/
def utf16 (s : String) : JSString :=
  s.data.flatMap fun c =>
    if c.toNat < 65536 then [c.toNat]
    else [55296 + (c.toNat - 65536) / 1024, 56320 + (c.toNat - 65536) % 1024]

/-- ECMAScript `WhiteSpace` and `LineTerminator` code points, the ones
`String.prototype.trim` strips (all of them lie in the basic plane). -/
def isWhiteSpace (c : Nat) : Bool :=
  c == 0x09 || c == 0x0A || c == 0x0B || c == 0x0C || c == 0x0D || c == 0x20 ||
  c == 0xA0 || c == 0x1680 || (0x2000 ≤ c && c ≤ 0x200A) || c == 0x2028 ||
  c == 0x2029 || c == 0x202F || c == 0x205F || c == 0x3000 || c == 0xFEFF

/-- `String.prototype.trimStart`. -/
def trimStart (s : JSString) : JSString := s.dropWhile isWhiteSpace

/-- `String.prototype.trimEnd`. -/
def trimEnd (s : JSString) : JSString := (s.reverse.dropWhile isWhiteSpace).reverse

/-- `String.prototype.trim`. -/
def trim (s : JSString) : JSString := trimEnd (trimStart s)

/-- `String.prototype.charAt(pos)`: the code unit at `pos` as a string of
length one, or the empty string when `pos` is out of range. -/
def charAt (s : JSString) (pos : Nat) : JSString :=
  match s.get? pos with
  | some c => [c]
  | none => []

/-! ## JavaScript values -/

/-- A JavaScript number, as far as this program can tell numbers apart:
`-0` is not distinguished from `0` (both are falsy, print as `0`). -/
inductive JSNumber where
  | nan
  | posInf
  | negInf
  | fin (q : ℚ)
  deriving DecidableEq

/-- The values a request body or a parsed upstream text is made of.  An object
is the list of its own properties (the first entry of a name is the
property). -/
inductive JSValue where
  | undefined
  | null
  | bool (b : Bool)
  | number (x : JSNumber)
  | string (s : JSString)
  | array (items : List JSValue)
  | object (props : List (JSString × JSValue))

/-- The exception values the handlers can see; they only log them. -/
inductive JSError where
  | typeError
  | upstreamError
  deriving DecidableEq

/-- `ToBoolean`. -/
def truthy : JSValue → Bool
  | .undefined => false
  | .null => false
  | .bool b => b
  | .number .nan => false
  | .number (.fin q) => decide (q ≠ 0)
  | .number _ => true
  | .string s => !s.isEmpty
  | .array _ => true
  | .object _ => true

/-- The JavaScript `a || b`. -/
def jsOr (a b : JSValue) : JSValue := if truthy a then a else b

/-- `Array.isArray`. -/
def isArray : JSValue → Bool
  | .array _ => true
  | _ => false

/-- The elements of `Array.isArray(v) ? v : []`. -/
def arrayItems : JSValue → List JSValue
  | .array xs => xs
  | _ => []

/-- Own property `name` of a property list. -/
def lookupProp (name : JSString) : List (JSString × JSValue) → JSValue
  | [] => .undefined
  | (k, v) :: rest => if k = name then v else lookupProp name rest

/-- The optional property read `v?.name`, for the property names this program
reads (`targetSyllable`, `slots`, `letters`, `targetWord`, `options`,
`targetNumber`, `exercises`, `data`, `syllable`): none of them is inherited
from a prototype, so only an object can have one. -/
def getProp (v : JSValue) (name : JSString) : JSValue :=
  match v with
  | .object props => lookupProp name props
  | _ => .undefined

/-- `Array.prototype.slice(start, end)` with integer arguments. -/
def slice {α : Type} (xs : List α) (start stop : Int) : List α :=
  let len : Int := xs.length
  let k : Int := if start < 0 then max (len + start) 0 else min start len
  let final : Int := if stop < 0 then max (len + stop) 0 else min stop len
  (xs.drop k.toNat).take (final - k).toNat

/-! ## The runtime library and the upstream call -/

/-- Library functions of the JavaScript runtime that the handlers call. -/
structure Host where
  /-- `JSON.parse`; `none` when it throws a `SyntaxError`. -/
  jsonParse : JSString → Option JSValue
  /-- `JSON.stringify`; `none` when it returns `undefined`. -/
  jsonStringify : JSValue → Option JSString
  /-- `Number::toString`. -/
  numberToString : JSNumber → JSString
  /-- `String.prototype.toUpperCase`. -/
  toUpperCase : JSString → JSString
  /-- `process.env.OPENAI_MODEL`. -/
  envModel : Option JSString

mutual
/-- `ToString(v)`.  An object from JSON whose own `toString` property shadows
`Object.prototype.toString` has no callable conversion method, so the
conversion throws a `TypeError`. -/
def toJSString (h : Host) : JSValue → Except JSError JSString
  | .undefined => .ok (utf16 "undefined")
  | .null => .ok (utf16 "null")
  | .bool b => .ok (if b then utf16 "true" else utf16 "false")
  | .number x => .ok (h.numberToString x)
  | .string s => .ok s
  | .array xs => joinItems h (utf16 ",") xs
  | .object props =>
      if props.any (fun p => p.1 = utf16 "toString") then .error .typeError
      else .ok (utf16 "[object Object]")
termination_by structural v => v
/-- `Array.prototype.join(sep)` on the elements: `undefined` and `null`
elements give the empty string, the others go through `ToString`. -/
def joinItems (h : Host) (sep : JSString) : List JSValue → Except JSError JSString
  | [] => .ok []
  | x :: rest =>
      let first : Except JSError JSString :=
        match x with
        | .undefined => .ok []
        | .null => .ok []
        | v => toJSString h v
      match first, joinItems h sep rest with
      | .ok a, .ok b => .ok (if rest.isEmpty then a else a ++ sep ++ b)
      | .error e, _ => .error e
      | _, .error e => .error e
termination_by structural l => l
end

/-- The method call `v.join(sep)`: a `TypeError` unless `v` is an array. -/
def callJoin (h : Host) (v : JSValue) (sep : JSString) : Except JSError JSString :=
  match v with
  | .array xs => joinItems h sep xs
  | _ => .error .typeError

/-- The text of `JSON.stringify(v)` inside a template literal. -/
def stringifyText (h : Host) (v : JSValue) : JSString :=
  match h.jsonStringify v with
  | some s => s
  | none => utf16 "undefined"

/-- The parameters of `openai.responses.create`. -/
structure CreateParams where
  model : JSString
  system : JSString
  user : JSString
  max_output_tokens : Nat

/-- What the upstream call does: it throws (rejects), or returns a response
whose `output_text` is absent (`none`) or a string. -/
inductive Outcome where
  | throws
  | returns (output_text : Option JSString)

/-- `await openai.responses.create(p)` inside a `try` block. -/
def callUpstream (up : CreateParams → Outcome) (p : CreateParams) :
    Except JSError (Option JSString) :=
  match up p with
  | .throws => .error .upstreamError
  | .returns t => .ok t

/-- `process.env.OPENAI_MODEL || 'gpt-4o-mini'`. -/
def MODEL (h : Host) : JSString :=
  match h.envModel with
  | some m => if m.isEmpty then utf16 "gpt-4o-mini" else m
  | none => utf16 "gpt-4o-mini"

/-- The constant `systemKidSpanish`. -/
def systemKidSpanish : JSString :=
  utf16 "\nEres una tutora de lectoescritura para niños de 3-4 años.\nResponde SIEMPRE en español de Perú, con 1 frase corta.\nEvita tecnicismos. Usa ejemplos con M, P, L, S, T y vocales.\nNunca incluyas enlaces.\n"

/-- `req.body || {}`. -/
def bodyOrEmpty (body : JSValue) : JSValue := jsOr body (.object [])

/-- A destructured field with the default `= []`. -/
def withDefaultEmptyArray : JSValue → JSValue
  | .undefined => .array []
  | v => v

/-- The `{ hint }` response. -/
structure HintResponse where
  hint : JSString
  deriving DecidableEq

/-! ## POST /api/hint (lines 29-57) -/

/-- Parameters of the upstream call of `/api/hint` (lines 34-48); building the
user message converts `targetSyllable` and the letters to strings, which can
throw. -/
def hintParams (h : Host) (b : JSValue) : Except JSError CreateParams :=
  let targetSyllable := getProp b (utf16 "targetSyllable")
  let slots := getProp b (utf16 "slots")
  let letters := getProp b (utf16 "letters")
  match toJSString h targetSyllable with
  | .error e => .error e
  | .ok syllableText =>
    match (if isArray letters then callJoin h letters (utf16 ", ") else .ok []) with
    | .error e => .error e
    | .ok lettersText =>
      .ok {
        model := MODEL h
        system := systemKidSpanish
        user :=
          utf16 "Estamos armando la sílaba \"" ++ syllableText ++ utf16 "\". " ++
          utf16 "Casillas: " ++ stringifyText h slots ++ utf16 " (null=vacío). " ++
          utf16 "Letras disponibles: " ++ lettersText ++ utf16 ". " ++
          utf16 "Da UNA sola pista muy breve y positiva para un niño de 3-4 años."
        max_output_tokens := 60 }

/-- The expression `r.output_text?.trim()` followed by `||`: the trimmed text
when it is a non-empty string, otherwise the alternative. -/
def trimmedOr {ε : Type} (output_text : Option JSString) (alt : Except ε JSString) :
    Except ε JSString :=
  match output_text with
  | none => alt
  | some t => if (trim t).isEmpty then alt else .ok (trim t)

/-- Handler of POST `/api/hint`. -/
def hintHandler (h : Host) (up : CreateParams → Outcome) (body : JSValue) :
    Option HintResponse :=
  let b := bodyOrEmpty body
  let attempt : Except JSError HintResponse :=
    match hintParams h b with
    | .error e => .error e
    | .ok p =>
      match callUpstream up p with
      | .error e => .error e
      | .ok output_text =>
        match trimmedOr output_text (.ok (utf16 "Junta la consonante con su vocal 😊")) with
        | .error e => .error e
        | .ok text => .ok { hint := text }
  match attempt with
  | .ok r => some r
  | .error _ => some { hint := utf16 "Junta la consonante con la vocal 🙂" }

/-! ## POST /api/match/hint (lines 129-161) -/

/-- Parameters of the upstream call of `/api/match/hint` (lines 134-150). -/
def matchParams (h : Host) (b : JSValue) : Except JSError CreateParams :=
  let targetWord := getProp b (utf16 "targetWord")
  let options := withDefaultEmptyArray (getProp b (utf16 "options"))
  match toJSString h targetWord with
  | .error e => .error e
  | .ok wordText =>
    match (if isArray options then callJoin h options (utf16 ", ") else .ok []) with
    | .error e => .error e
    | .ok optionsText =>
      .ok {
        model := MODEL h
        system := utf16 "\nEres una tutora de lectoescritura para niños de 3-4 años.\nResponde en español de Perú con 1 frase corta.\nNo reveles la respuesta exacta; da pista por sonido inicial o idea simple.\n"
        user :=
          utf16 "Juego: emparejar palabra con imagen.\nPalabra objetivo: \"" ++ wordText ++
          utf16 "\".\nOtras palabras en pantalla: " ++ optionsText ++
          utf16 ".\nDa UNA pista muy breve. Ej.: \"Empieza con Ssss\" o \"Da luz y está en el cielo\"."
        max_output_tokens := 50 }

/-- The template of lines 154 and 159: the first code unit of
`String(targetWord)`, upper-cased, inside the fixed phrase.  The conversion
`String(targetWord)` can throw. -/
def matchFallback (h : Host) (targetWord : JSValue) : Except JSError JSString :=
  match toJSString h targetWord with
  | .error e => .error e
  | .ok w => .ok (utf16 "Empieza con \"" ++ h.toUpperCase (charAt w 0) ++ utf16 "\".")

/-- Handler of POST `/api/match/hint`.  The `catch` block evaluates the
template again; when that throws, the promise rejects and no response is
sent. -/
def matchHintHandler (h : Host) (up : CreateParams → Outcome) (body : JSValue) :
    Option HintResponse :=
  let b := bodyOrEmpty body
  let targetWord := getProp b (utf16 "targetWord")
  let attempt : Except JSError HintResponse :=
    match matchParams h b with
    | .error e => .error e
    | .ok p =>
      match callUpstream up p with
      | .error e => .error e
      | .ok output_text =>
        match trimmedOr output_text (matchFallback h targetWord) with
        | .error e => .error e
        | .ok text => .ok { hint := text }
  match attempt with
  | .ok r => some r
  | .error _ =>
    match matchFallback h targetWord with
    | .ok text => some { hint := text }
    | .error _ => none

/-! ## POST /api/math/hint (lines 164-193) -/

/-- Parameters of the upstream call of `/api/math/hint` (lines 169-185);
`options.join` is called without an `Array.isArray` test. -/
def mathParams (h : Host) (b : JSValue) : Except JSError CreateParams :=
  let targetNumber := getProp b (utf16 "targetNumber")
  let options := withDefaultEmptyArray (getProp b (utf16 "options"))
  match toJSString h targetNumber with
  | .error e => .error e
  | .ok numberText =>
    match callJoin h options (utf16 ", ") with
    | .error e => .error e
    | .ok optionsText =>
      .ok {
        model := MODEL h
        system := utf16 "\nEres una tutora para niños de 3-4 años.\nResponde en español de Perú, con 1 sola frase muy corta.\nNo digas el número exacto; da una ayuda como \"Cuenta con tu dedo\" o \"Mira de uno en uno\".\n"
        user :=
          utf16 "\nJuego: contar manzanas.\nNúmero correcto (no lo digas): " ++ numberText ++
          utf16 ".\nOpciones en pantalla: " ++ optionsText ++
          utf16 ".\nDa UNA pista muy breve, amable y sin revelar la respuesta.\n"
        max_output_tokens := 40 }

/-- Handler of POST `/api/math/hint`. -/
def mathHintHandler (h : Host) (up : CreateParams → Outcome) (body : JSValue) :
    Option HintResponse :=
  let b := bodyOrEmpty body
  let attempt : Except JSError HintResponse :=
    match mathParams h b with
    | .error e => .error e
    | .ok p =>
      match callUpstream up p with
      | .error e => .error e
      | .ok output_text =>
        match trimmedOr output_text (.ok (utf16 "Cuenta despacito con tu dedo: uno, dos, tres…")) with
        | .error e => .error e
        | .ok text => .ok { hint := text }
  match attempt with
  | .ok r => some r
  | .error _ => some { hint := utf16 "Cuenta despacito con tu dedo: uno, dos, tres…" }

/-! ## POST /api/exercises (lines 60-126) -/

/-- The body of an exercise request: `count` is an integer when present (the
`ExerciseRequest` shape). -/
structure ExerciseBody where
  count : Option Int

/-- The response: `{ exercises }`, or `{ error, exercises }`. -/
structure ExerciseResponse where
  error : Option JSString
  exercises : List JSValue

/-- An exercise literal `{ syllable, letters: [a, b], hint }`. -/
def exerciseLit (syllable a b hint : String) : JSValue :=
  .object [(utf16 "syllable", .string (utf16 syllable)),
           (utf16 "letters", .array [.string (utf16 a), .string (utf16 b)]),
           (utf16 "hint", .string (utf16 hint))]

/-- The array literal of lines 101-107 (after an empty filter result). -/
def localExercises : List JSValue :=
  [exerciseLit "MA" "M" "A" "M + A",
   exerciseLit "PE" "P" "E" "P + E",
   exerciseLit "LI" "L" "I" "L + I",
   exerciseLit "SO" "S" "O" "S + O",
   exerciseLit "TU" "T" "U" "T + U"]

/-- The array literal of lines 117-123 (in the `catch` block). -/
def noAiExercises : List JSValue :=
  [exerciseLit "MA" "M" "A" "M + A",
   exerciseLit "PE" "P" "E" "P + E",
   exerciseLit "LI" "L" "I" "L + I",
   exerciseLit "SO" "S" "O" "S + O",
   exerciseLit "TU" "T" "U" "T + U"]

/-- Parameters of the upstream call of `/api/exercises` (lines 65-83). -/
def exercisesParams (h : Host) (count : Int) : CreateParams :=
  { model := MODEL h
    system := systemKidSpanish
    user :=
      utf16 "Crea " ++ h.numberToString (.fin count) ++ utf16 " ejercicios de sílabas abiertas (CV). " ++
      utf16 "Solo consonantes: M, P, L, S, T. Solo vocales: A, E, I, O, U. " ++
      utf16 "Devuélvelos en JSON estrictamente como un arreglo de objetos:\n            [\n              \x7b\"syllable\":\"MA\",\"letters\":[\"M\",\"A\"],\"hint\":\"M + A\"\x7d,\n              ...\n            ]\n            Sin texto extra."
    max_output_tokens := 200 }

/-- The filter predicate of line 95:
`e?.syllable && Array.isArray(e?.letters) && e.letters.length === 2`. -/
def validExercise (e : JSValue) : Bool :=
  truthy (getProp e (utf16 "syllable")) &&
  isArray (getProp e (utf16 "letters")) &&
  (arrayItems (getProp e (utf16 "letters"))).length == 2

/-- Lines 86-87: `payload` stays `undefined` when `JSON.parse` throws, which it
also does on an absent `output_text` (the text `undefined` is not JSON). -/
def parsePayload (h : Host) (output_text : Option JSString) : JSValue :=
  match output_text with
  | none => .undefined
  | some t =>
    match h.jsonParse t with
    | some v => v
    | none => .undefined

/-- Lines 90-92: the array itself, or `payload?.exercises || payload?.data || []`. -/
def pickArray (payload : JSValue) : JSValue :=
  if isArray payload then payload
  else jsOr (jsOr (getProp payload (utf16 "exercises")) (getProp payload (utf16 "data"))) (.array [])

/-- Lines 94-96: the entries that pass the filter, sliced to `count`. -/
def safeExercises (payload : JSValue) (count : Int) : List JSValue :=
  slice ((arrayItems (pickArray payload)).filter validExercise) 0 count

/-- Line 61, `const { count = 5 } = req.body || {}`: the default applies when
the body or its `count` is absent. -/
def requestedCount (body : Option ExerciseBody) : Int :=
  match body with
  | some b => (match b.count with | some c => c | none => 5)
  | none => 5

/-- Handler of POST `/api/exercises`. -/
def exercisesHandler (h : Host) (up : CreateParams → Outcome) (body : Option ExerciseBody) :
    ExerciseResponse :=
  let count : Int := requestedCount body
  match callUpstream up (exercisesParams h count) with
  | .ok output_text =>
    let payload := parsePayload h output_text
    let safe := safeExercises payload count
    if safe.length = 0 then
      { error := none, exercises := slice localExercises 0 count }
    else
      { error := none, exercises := safe }
  | .error _ =>
    { error := some (utf16 "no_ai"), exercises := slice noAiExercises 0 count }

/-! ## Sample runtime and the reading of the specification -/

/-- ASCII upper-casing, the part of `toUpperCase` the sample inputs need. -/
def asciiUpper (s : JSString) : JSString :=
  s.map fun c => if 97 ≤ c ∧ c ≤ 122 then c - 32 else c

/-- A concrete runtime for evaluating the handlers at sample inputs.  Its
`jsonParse` knows two texts, `[{"syllable":"MA","letters":["M","A"]}]` and
`[{"syllable":"MA","letters":["M","A"]},{"syllable":[],"letters":[1,2]}]`, and
rejects every other one; the conversions the samples do not reach are
constant. -/
def sampleHost : Host where
  jsonParse := fun t =>
    if t = utf16 "[\x7b\"syllable\":\"MA\",\"letters\":[\"M\",\"A\"]\x7d]" then
      some (.array [.object [(utf16 "syllable", .string (utf16 "MA")),
                             (utf16 "letters", .array [.string (utf16 "M"), .string (utf16 "A")])]])
    else if t = utf16 "[\x7b\"syllable\":\"MA\",\"letters\":[\"M\",\"A\"]\x7d,\x7b\"syllable\":[],\"letters\":[1,2]\x7d]" then
      some (.array [.object [(utf16 "syllable", .string (utf16 "MA")),
                             (utf16 "letters", .array [.string (utf16 "M"), .string (utf16 "A")])],
                    .object [(utf16 "syllable", .array []),
                             (utf16 "letters", .array [.number (.fin 1), .number (.fin 2)])]])
    else none
  jsonStringify := fun _ => none
  numberToString := fun _ => utf16 "5"
  toUpperCase := asciiUpper
  envModel := none

/-- A string all of whose code units are white space (the empty string
included). -/
def whitespaceOnly (t : JSString) : Prop := ∀ c ∈ t, isWhiteSpace c = true

instance (t : JSString) : Decidable (whitespaceOnly t) := by
  unfold whitespaceOnly
  infer_instance

/-- The specification's candidate list `A` for a parsed payload `P`: `P` itself
if it is an array, otherwise `P.exercises` if truthy, otherwise `P.data` if
truthy, otherwise the empty list; the empty list if the chosen value is not an
array. -/
def specCandidates (P : JSValue) : List JSValue :=
  let chosen : JSValue :=
    if isArray P then P
    else if truthy (getProp P (utf16 "exercises")) then getProp P (utf16 "exercises")
    else if truthy (getProp P (utf16 "data")) then getProp P (utf16 "data")
    else .array []
  arrayItems chosen

/-- A non-empty string, the `syllable` of the specification's `Exercise`
shape. -/
def nonEmptyString : JSValue → Bool
  | .string s => !s.isEmpty
  | _ => false

/-- An array of exactly two entries. -/
def arrayOfTwo : JSValue → Bool
  | .array [_, _] => true
  | _ => false

/-- The specification's entry test: a non-empty `syllable` and a `letters`
array of exactly two entries. -/
def specKeeps (e : JSValue) : Bool :=
  nonEmptyString (getProp e (utf16 "syllable")) && arrayOfTwo (getProp e (utf16 "letters"))

/-- The specification's list `S`: the kept entries of `A` in their order,
truncated to the first `count` entries. -/
def specSelected (P : JSValue) (count : Int) : List JSValue :=
  ((specCandidates P).filter specKeeps).take count.toNat

/-- The entry test with a truthy `syllable` in place of a non-empty one: any
value other than `undefined`, `null`, `false`, `0`, `NaN` and the empty
string. -/
def truthyKeeps (e : JSValue) : Bool :=
  truthy (getProp e (utf16 "syllable")) && arrayOfTwo (getProp e (utf16 "letters"))

/-- The list `S` with the truthy entry test. -/
def truthySelected (P : JSValue) (count : Int) : List JSValue :=
  ((specCandidates P).filter truthyKeeps).take count.toNat

/-! ## Lemmas on `slice` -/

theorem slice_zero_of_nonneg {α : Type} (xs : List α) (c : Int) (hc : 0 ≤ c) :
    slice xs 0 c = xs.take c.toNat := by
  unfold slice
  have h1 : ¬ ((0 : Int) < 0) := by decide
  have h2 : ¬ (c < 0) := by omega
  simp only [h1, h2, if_false]
  have h3 : min (0 : Int) (xs.length : Int) = 0 := by omega
  rw [h3]
  simp only [Int.toNat_zero, List.drop_zero, sub_zero]
  rcases Nat.lt_or_ge xs.length c.toNat with hlt | hge
  · have : min c (xs.length : Int) = xs.length := by omega
    rw [this, Int.toNat_ofNat, List.take_of_length_le (le_refl _),
      List.take_of_length_le (le_of_lt hlt)]
  · have : min c (xs.length : Int) = c := by omega
    rw [this]

theorem slice_zero_of_neg {α : Type} (xs : List α) (c : Int) (hc : c < 0) :
    slice xs 0 c = xs.take ((xs.length : Int) + c).toNat := by
  unfold slice
  have h1 : ¬ ((0 : Int) < 0) := by decide
  simp only [h1, hc, if_true, if_false]
  have h3 : min (0 : Int) (xs.length : Int) = 0 := by omega
  rw [h3]
  simp only [Int.toNat_zero, List.drop_zero, sub_zero]
  congr 1
  omega

theorem slice_zero_length_le {α : Type} (xs : List α) (c : Int) (hc : 0 ≤ c) :
    ((slice xs 0 c).length : Int) ≤ c := by
  rw [slice_zero_of_nonneg xs c hc, List.length_take]
  omega

theorem mem_of_mem_slice {α : Type} (xs : List α) (a b : Int) (x : α)
    (hx : x ∈ slice xs a b) : x ∈ xs := by
  unfold slice at hx
  exact List.mem_of_mem_drop (List.mem_of_mem_take hx)

/-! ## Lemmas on the exercise lists -/

theorem validExercise_letters (e : JSValue) (he : validExercise e = true) :
    ∃ a b, getProp e (utf16 "letters") = .array [a, b] := by
  unfold validExercise at he
  cases hl : getProp e (utf16 "letters") with
  | array xs =>
    rw [hl] at he
    simp only [arrayItems, Bool.and_eq_true, beq_iff_eq] at he
    match xs, he.2 with
    | [a, b], _ => exact ⟨a, b, rfl⟩
  | undefined => rw [hl] at he; simp [isArray] at he
  | null => rw [hl] at he; simp [isArray] at he
  | bool _ => rw [hl] at he; simp [isArray] at he
  | number _ => rw [hl] at he; simp [isArray] at he
  | string _ => rw [hl] at he; simp [isArray] at he
  | object _ => rw [hl] at he; simp [isArray] at he

theorem exerciseLit_letters (s a b t : String) :
    getProp (exerciseLit s a b t) (utf16 "letters")
      = .array [.string (utf16 a), .string (utf16 b)] := by
  have h1 : utf16 "syllable" ≠ utf16 "letters" := by decide
  simp [exerciseLit, getProp, lookupProp, h1]

theorem localExercises_letters (e : JSValue) (he : e ∈ localExercises) :
    ∃ a b, getProp e (utf16 "letters") = .array [a, b] := by
  simp only [localExercises, List.mem_cons, List.mem_singleton, List.not_mem_nil, or_false] at he
  rcases he with rfl | rfl | rfl | rfl | rfl <;> exact ⟨_, _, exerciseLit_letters _ _ _ _⟩

theorem noAi_eq_local : noAiExercises = localExercises := rfl

theorem truthyKeeps_eq_validExercise (e : JSValue) : truthyKeeps e = validExercise e := by
  unfold truthyKeeps validExercise
  cases getProp e (utf16 "letters") with
  | array xs =>
    match xs with
    | [] => simp [isArray, arrayItems, arrayOfTwo]
    | [_] => simp [isArray, arrayItems, arrayOfTwo]
    | [_, _] => simp [isArray, arrayItems, arrayOfTwo]
    | _ :: _ :: _ :: _ => simp [isArray, arrayItems, arrayOfTwo]
  | _ => simp [isArray, arrayItems, arrayOfTwo]

theorem specKeeps_eq_truthyKeeps_of_string (e : JSValue) (s : JSString)
    (hs : getProp e (utf16 "syllable") = .string s) : specKeeps e = truthyKeeps e := by
  unfold specKeeps truthyKeeps
  rw [hs]
  rfl

theorem specCandidates_eq_pickArray (P : JSValue) :
    specCandidates P = arrayItems (pickArray P) := by
  unfold specCandidates pickArray jsOr
  generalize getProp P (utf16 "exercises") = ex
  generalize getProp P (utf16 "data") = da
  cases hP : isArray P <;> cases hex : truthy ex <;> cases hda : truthy da <;>
    simp [hex, hda]

/-! ## POST /api/exercises: the claims -/

/-- C1: for every non-negative integer `count` and every upstream behaviour
(the call throws, returns no text, returns text that does not parse, returns
text that parses to any value), the `exercises` array of the response of POST
/api/exercises has at most `count` elements and every element has a `letters`
array of exactly two entries. -/
theorem exercises_length_and_letters (h : Host) (up : CreateParams → Outcome) (n : Nat) :
    (exercisesHandler h up (some { count := some (n : Int) })).exercises.length ≤ n ∧
    ∀ e ∈ (exercisesHandler h up (some { count := some (n : Int) })).exercises,
      ∃ a b, getProp e (utf16 "letters") = .array [a, b] := by
  have hn : (0 : Int) ≤ (n : Int) := Int.ofNat_nonneg n
  have hlen : ∀ xs : List JSValue, (slice xs 0 (n : Int)).length ≤ n := by
    intro xs
    have := slice_zero_length_le xs (n : Int) hn
    omega
  unfold exercisesHandler callUpstream
  simp only [requestedCount]
  cases up (exercisesParams h (n : Int)) with
  | throws =>
    refine ⟨hlen _, ?_⟩
    intro e he
    exact localExercises_letters e (mem_of_mem_slice _ _ _ _ he)
  | returns t =>
    simp only
    split
    · refine ⟨hlen _, ?_⟩
      intro e he
      exact localExercises_letters e (mem_of_mem_slice _ _ _ _ he)
    · refine ⟨hlen _, ?_⟩
      intro e he
      have hmem := mem_of_mem_slice _ _ _ _ he
      exact validExercise_letters e (List.mem_filter.mp hmem).2

/-- C2: whenever the upstream call of POST /api/exercises throws, the response
is `{ error: "no_ai", exercises: L.slice(0, count) }` for every integer
`count`, where `L` is the fixed list MA, PE, LI, SO, TU; for `count >= 5` the
list is all of `L`, and for `0 <= count <= 5` it is the first `count` entries of
`L` in order. -/
theorem exercises_no_ai (h : Host) (up : CreateParams → Outcome) (body : Option ExerciseBody)
    (hthrow : up (exercisesParams h (requestedCount body)) = .throws) :
    (exercisesHandler h up body).error = some (utf16 "no_ai") ∧
    (exercisesHandler h up body).exercises = slice noAiExercises 0 (requestedCount body) ∧
    noAiExercises =
      [.object [(utf16 "syllable", .string (utf16 "MA")),
                (utf16 "letters", .array [.string (utf16 "M"), .string (utf16 "A")]),
                (utf16 "hint", .string (utf16 "M + A"))],
       .object [(utf16 "syllable", .string (utf16 "PE")),
                (utf16 "letters", .array [.string (utf16 "P"), .string (utf16 "E")]),
                (utf16 "hint", .string (utf16 "P + E"))],
       .object [(utf16 "syllable", .string (utf16 "LI")),
                (utf16 "letters", .array [.string (utf16 "L"), .string (utf16 "I")]),
                (utf16 "hint", .string (utf16 "L + I"))],
       .object [(utf16 "syllable", .string (utf16 "SO")),
                (utf16 "letters", .array [.string (utf16 "S"), .string (utf16 "O")]),
                (utf16 "hint", .string (utf16 "S + O"))],
       .object [(utf16 "syllable", .string (utf16 "TU")),
                (utf16 "letters", .array [.string (utf16 "T"), .string (utf16 "U")]),
                (utf16 "hint", .string (utf16 "T + U"))]] ∧
    (5 ≤ requestedCount body → (exercisesHandler h up body).exercises = noAiExercises) ∧
    (0 ≤ requestedCount body → requestedCount body ≤ 5 →
      (exercisesHandler h up body).exercises = noAiExercises.take (requestedCount body).toNat) := by
  have hresp : exercisesHandler h up body =
      { error := some (utf16 "no_ai"),
        exercises := slice noAiExercises 0 (requestedCount body) } := by
    unfold exercisesHandler callUpstream
    simp only [hthrow]
  refine ⟨by rw [hresp], by rw [hresp], rfl, ?_, ?_⟩
  · intro h5
    rw [hresp]
    show slice noAiExercises 0 (requestedCount body) = noAiExercises
    rw [slice_zero_of_nonneg _ _ (by omega)]
    apply List.take_of_length_le
    have : noAiExercises.length = 5 := rfl
    omega
  · intro h0 _
    rw [hresp]
    exact slice_zero_of_nonneg _ _ h0

/-- Witness of C2 at `count = 3` with an upstream call that always throws. -/
theorem exercises_no_ai_witness :
    (exercisesHandler sampleHost (fun _ => .throws) (some { count := some 3 })).error
        = some (utf16 "no_ai") ∧
    (exercisesHandler sampleHost (fun _ => .throws) (some { count := some 3 })).exercises
        = noAiExercises.take 3 :=
  have hw := exercises_no_ai sampleHost (fun _ => .throws) (some { count := some 3 }) rfl
  ⟨hw.1, hw.2.2.2.2 (by decide) (by decide)⟩

/-- C6 as stated fails: the upstream text
`[{"syllable":"MA","letters":["M","A"]},{"syllable":[],"letters":[1,2]}]`
parses to two entries; the list `S` of the specification holds the first one
only (the second has no non-empty syllable), while the response holds both,
the empty array being truthy. -/
theorem exercises_selected_as_worded_fails :
    sampleHost.jsonParse
        (utf16 "[\x7b\"syllable\":\"MA\",\"letters\":[\"M\",\"A\"]\x7d,\x7b\"syllable\":[],\"letters\":[1,2]\x7d]")
      = some (.array [.object [(utf16 "syllable", .string (utf16 "MA")),
                               (utf16 "letters", .array [.string (utf16 "M"), .string (utf16 "A")])],
                      .object [(utf16 "syllable", .array []),
                               (utf16 "letters", .array [.number (.fin 1), .number (.fin 2)])]]) ∧
    specSelected
        (.array [.object [(utf16 "syllable", .string (utf16 "MA")),
                          (utf16 "letters", .array [.string (utf16 "M"), .string (utf16 "A")])],
                 .object [(utf16 "syllable", .array []),
                          (utf16 "letters", .array [.number (.fin 1), .number (.fin 2)])]]) 5
      = [.object [(utf16 "syllable", .string (utf16 "MA")),
                  (utf16 "letters", .array [.string (utf16 "M"), .string (utf16 "A")])]] ∧
    (exercisesHandler sampleHost
        (fun _ => .returns (some (utf16 "[\x7b\"syllable\":\"MA\",\"letters\":[\"M\",\"A\"]\x7d,\x7b\"syllable\":[],\"letters\":[1,2]\x7d]")))
        none).exercises
      = [.object [(utf16 "syllable", .string (utf16 "MA")),
                  (utf16 "letters", .array [.string (utf16 "M"), .string (utf16 "A")])],
         .object [(utf16 "syllable", .array []),
                  (utf16 "letters", .array [.number (.fin 1), .number (.fin 2)])]] ∧
    (exercisesHandler sampleHost
        (fun _ => .returns (some (utf16 "[\x7b\"syllable\":\"MA\",\"letters\":[\"M\",\"A\"]\x7d,\x7b\"syllable\":[],\"letters\":[1,2]\x7d]")))
        none).exercises
      ≠ specSelected
        (.array [.object [(utf16 "syllable", .string (utf16 "MA")),
                          (utf16 "letters", .array [.string (utf16 "M"), .string (utf16 "A")])],
                 .object [(utf16 "syllable", .array []),
                          (utf16 "letters", .array [.number (.fin 1), .number (.fin 2)])]]) 5 := by
  refine ⟨rfl, rfl, rfl, ?_⟩
  intro heq
  have hlen := congrArg List.length heq
  have h2 : (exercisesHandler sampleHost
      (fun _ => .returns (some (utf16 "[\x7b\"syllable\":\"MA\",\"letters\":[\"M\",\"A\"]\x7d,\x7b\"syllable\":[],\"letters\":[1,2]\x7d]")))
      none).exercises.length = 2 := rfl
  have h1 : (specSelected
      (.array [.object [(utf16 "syllable", .string (utf16 "MA")),
                        (utf16 "letters", .array [.string (utf16 "M"), .string (utf16 "A")])],
               .object [(utf16 "syllable", .array []),
                        (utf16 "letters", .array [.number (.fin 1), .number (.fin 2)])]]) 5).length
      = 1 := rfl
  rw [h2, h1] at hlen
  exact absurd hlen (by decide)

/-- C6 amended: when the upstream text of POST /api/exercises parses as JSON to
`P`, let `S` be the entries of the candidate list of `P`, in their order, whose
`syllable` is truthy and whose `letters` is an array of exactly two entries,
truncated to the first `count`; whenever `S` is non-empty the response is
exactly `{ exercises: S }` with no `error` field. -/
theorem exercises_selected (h : Host) (up : CreateParams → Outcome)
    (body : Option ExerciseBody) (t : JSString) (P : JSValue)
    (hret : up (exercisesParams h (requestedCount body)) = .returns (some t))
    (hparse : h.jsonParse t = some P)
    (hS : truthySelected P (requestedCount body) ≠ []) :
    (exercisesHandler h up body).exercises = truthySelected P (requestedCount body) ∧
    (exercisesHandler h up body).error = none := by
  have hpos : 0 ≤ requestedCount body := by
    by_contra hneg
    apply hS
    unfold truthySelected
    have : (requestedCount body).toNat = 0 := by omega
    rw [this, List.take_zero]
  have hsafe : safeExercises P (requestedCount body)
      = truthySelected P (requestedCount body) := by
    unfold safeExercises truthySelected
    rw [slice_zero_of_nonneg _ _ hpos, specCandidates_eq_pickArray]
    have hf : truthyKeeps = validExercise := funext truthyKeeps_eq_validExercise
    rw [hf]
  have hlen : ¬ (safeExercises P (requestedCount body)).length = 0 := by
    rw [hsafe]
    intro h0
    exact hS (List.length_eq_zero.mp h0)
  have hpay : parsePayload h (some t) = P := by
    simp only [parsePayload, hparse]
  unfold exercisesHandler callUpstream
  simp only [hret, hpay]
  rw [if_neg hlen]
  exact ⟨hsafe, rfl⟩

/-- Witness of the amended C6: the upstream returns the text
`[{"syllable":"MA","letters":["M","A"]}]` and `count` is absent (so 5). -/
theorem exercises_selected_witness :
    (exercisesHandler sampleHost
        (fun _ => .returns (some (utf16 "[\x7b\"syllable\":\"MA\",\"letters\":[\"M\",\"A\"]\x7d]")))
        none).exercises
      = [.object [(utf16 "syllable", .string (utf16 "MA")),
                  (utf16 "letters", .array [.string (utf16 "M"), .string (utf16 "A")])]] :=
  (exercises_selected sampleHost
    (fun _ => .returns (some (utf16 "[\x7b\"syllable\":\"MA\",\"letters\":[\"M\",\"A\"]\x7d]")))
    none
    (utf16 "[\x7b\"syllable\":\"MA\",\"letters\":[\"M\",\"A\"]\x7d]")
    (.array [.object [(utf16 "syllable", .string (utf16 "MA")),
                      (utf16 "letters", .array [.string (utf16 "M"), .string (utf16 "A")])]])
    rfl rfl (List.cons_ne_nil _ _)).1

/-- C7: whenever the upstream call of POST /api/exercises returns without
throwing but its output is malformed (no text or text that does not parse; a
parsed value that offers no array; an array none of whose entries passes the
filter), the response is `{ exercises: L.slice(0, count) }`, without an `error`
field, and `L` is the same list as the one of the exception path. -/
theorem exercises_malformed (h : Host) (up : CreateParams → Outcome)
    (body : Option ExerciseBody) (out : Option JSString)
    (hret : up (exercisesParams h (requestedCount body)) = .returns out)
    (hmal : (out = none ∨ ∃ t, out = some t ∧ h.jsonParse t = none) ∨
            isArray (pickArray (parsePayload h out)) = false ∨
            ∀ e ∈ arrayItems (pickArray (parsePayload h out)), validExercise e = false) :
    (exercisesHandler h up body).exercises = slice localExercises 0 (requestedCount body) ∧
    (exercisesHandler h up body).error = none ∧
    localExercises = noAiExercises := by
  have hfil : (arrayItems (pickArray (parsePayload h out))).filter validExercise = [] := by
    rcases hmal with hnp | hshape | hnone
    · have hu : parsePayload h out = .undefined := by
        rcases hnp with rfl | ⟨t, rfl, ht⟩
        · rfl
        · simp only [parsePayload, ht]
      rw [hu]
      rfl
    · cases hp : pickArray (parsePayload h out) with
      | array xs => rw [hp] at hshape; simp [isArray] at hshape
      | _ => rfl
    · apply List.filter_eq_nil_iff.mpr
      intro e he
      rw [hnone e he]
      decide
  have hsafe : (safeExercises (parsePayload h out) (requestedCount body)).length = 0 := by
    unfold safeExercises
    rw [hfil]
    simp [slice]
  unfold exercisesHandler callUpstream
  simp only [hret, hsafe, if_true]
  exact ⟨trivial, trivial, rfl⟩

/-- Witness of C7: the upstream returns the text `oops`, which does not parse,
and `count` is 2. -/
theorem exercises_malformed_witness :
    (exercisesHandler sampleHost (fun _ => .returns (some (utf16 "oops")))
        (some { count := some 2 })).exercises = localExercises.take 2 ∧
    (exercisesHandler sampleHost (fun _ => .returns (some (utf16 "oops")))
        (some { count := some 2 })).error = none :=
  have hw := exercises_malformed sampleHost (fun _ => .returns (some (utf16 "oops")))
    (some { count := some 2 }) (some (utf16 "oops")) rfl
    (Or.inl (Or.inr ⟨utf16 "oops", rfl, rfl⟩))
  ⟨hw.1, hw.2.1⟩

/-- C10 as stated fails: with `count = -1` and an upstream call that throws,
the handler returns 4 exercises, more than the requested count. -/
theorem exercises_negative_count_exceeds :
    (exercisesHandler sampleHost (fun _ => .throws)
        (some { count := some (-1) })).exercises.length = 4 ∧
    ¬ (((exercisesHandler sampleHost (fun _ => .throws)
        (some { count := some (-1) })).exercises.length : Int) ≤ -1) := by
  have hlen : (exercisesHandler sampleHost (fun _ => .throws)
      (some { count := some (-1) })).exercises.length = 4 := by decide
  refine ⟨hlen, ?_⟩
  rw [hlen]
  decide

/-- C10 amended: for every integer `count >= 0` (5 when absent) and every
upstream behaviour the returned list has at most `count` entries; for a
negative `count` the bound does not hold, `slice(0, count)` then drops the last
`-count` entries, so that the exception path returns `max(5 + count, 0)`
entries. -/
theorem exercises_length_le_count (h : Host) (up : CreateParams → Outcome)
    (body : Option ExerciseBody) :
    (0 ≤ requestedCount body →
      ((exercisesHandler h up body).exercises.length : Int) ≤ requestedCount body) ∧
    (requestedCount body < 0 → up (exercisesParams h (requestedCount body)) = .throws →
      (exercisesHandler h up body).exercises.length = (5 + requestedCount body).toNat) := by
  constructor
  · intro hc
    unfold exercisesHandler callUpstream
    dsimp only
    cases up (exercisesParams h (requestedCount body)) with
    | throws => exact slice_zero_length_le _ _ hc
    | returns t =>
      simp only
      split
      · exact slice_zero_length_le _ _ hc
      · exact slice_zero_length_le _ _ hc
  · intro hc hthrow
    unfold exercisesHandler callUpstream
    simp only [hthrow]
    rw [slice_zero_of_neg _ _ hc, List.length_take]
    have : noAiExercises.length = 5 := rfl
    rw [this]
    omega

/-- Witness of the amended C10 at `count = 3` and at `count = -2`. -/
theorem exercises_length_le_count_witness :
    ((exercisesHandler sampleHost (fun _ => .throws)
        (some { count := some 3 })).exercises.length : Int) ≤ 3 ∧
    (exercisesHandler sampleHost (fun _ => .throws)
        (some { count := some (-2) })).exercises.length = 3 :=
  ⟨(exercises_length_le_count sampleHost (fun _ => .throws) (some { count := some 3 })).1
      (by decide),
   (exercises_length_le_count sampleHost (fun _ => .throws) (some { count := some (-2) })).2
      (by decide) rfl⟩

/-! ## Lemmas on `trim` -/

theorem trim_eq_nil_iff (t : JSString) : trim t = [] ↔ whitespaceOnly t := by
  unfold trim trimEnd trimStart whitespaceOnly
  rw [List.reverse_eq_nil_iff, List.dropWhile_eq_nil_iff]
  constructor
  · intro hall
    have hnil : t.dropWhile isWhiteSpace = [] := by
      by_contra hne
      have hhead := List.head_dropWhile_not isWhiteSpace t hne
      have hmem : (t.dropWhile isWhiteSpace).head hne ∈ (t.dropWhile isWhiteSpace).reverse :=
        List.mem_reverse.mpr (List.head_mem hne)
      rw [hall _ hmem] at hhead
      exact Bool.noConfusion hhead
    exact List.dropWhile_eq_nil_iff.mp hnil
  · intro hall x hx
    exact hall x ((List.dropWhile_suffix isWhiteSpace).subset (List.mem_reverse.mp hx))

theorem trim_split (t : JSString) :
    ∃ pre post, t = pre ++ trim t ++ post ∧ whitespaceOnly pre ∧ whitespaceOnly post := by
  refine ⟨t.takeWhile isWhiteSpace,
    ((t.dropWhile isWhiteSpace).reverse.takeWhile isWhiteSpace).reverse, ?_, ?_, ?_⟩
  · unfold trim trimEnd trimStart
    rw [List.append_assoc, ← List.reverse_append, List.takeWhile_append_dropWhile,
      List.reverse_reverse, List.takeWhile_append_dropWhile]
  · intro c hc
    exact List.mem_takeWhile_imp hc
  · intro c hc
    exact List.mem_takeWhile_imp (List.mem_reverse.mp hc)

theorem trim_first_not_whiteSpace (t : JSString) (c : Nat) (rest : JSString)
    (ht : trim t = c :: rest) : isWhiteSpace c = false := by
  have hpre : trim t <+: t.dropWhile isWhiteSpace := List.rdropWhile_prefix isWhiteSpace _
  obtain ⟨s, hs⟩ := hpre
  have hhead := List.head?_dropWhile_not isWhiteSpace t
  rw [← hs, ht] at hhead
  simpa using hhead

theorem trim_last_not_whiteSpace (t : JSString) (hne : trim t ≠ []) :
    isWhiteSpace ((trim t).getLast hne) = false := by
  have := List.rdropWhile_last_not isWhiteSpace (t.dropWhile isWhiteSpace) hne
  simpa using this

theorem trimmedOr_of_blank {ε : Type} (out : Option JSString) (alt : Except ε JSString)
    (hout : out = none ∨ ∃ t, out = some t ∧ whitespaceOnly t) :
    trimmedOr out alt = alt := by
  rcases hout with rfl | ⟨t, rfl, ht⟩
  · rfl
  · have : trim t = [] := (trim_eq_nil_iff t).mpr ht
    simp [trimmedOr, this]

theorem trimmedOr_of_text {ε : Type} (t : JSString) (alt : Except ε JSString)
    (ht : trim t ≠ []) : trimmedOr (some t) alt = .ok (trim t) := by
  have : (trim t).isEmpty = false := by
    cases h : trim t with
    | nil => exact absurd h ht
    | cons _ _ => rfl
  simp [trimmedOr, this]

/-! ## The hint handlers: supporting lemmas -/

theorem ne_nil_of_trimmedOr {out : Option JSString} {alt : JSString} {text : JSString}
    (halt : alt ≠ []) (h : trimmedOr out (.ok alt : Except JSError JSString) = .ok text) :
    text ≠ [] := by
  unfold trimmedOr at h
  cases out with
  | none =>
    simp only [Except.ok.injEq] at h
    exact h ▸ halt
  | some t =>
    simp only at h
    split at h
    · simp only [Except.ok.injEq] at h
      exact h ▸ halt
    · rename_i hne
      simp only [Except.ok.injEq] at h
      rw [← h]
      intro hnil
      rw [hnil] at hne
      exact hne rfl

theorem trimmedOr_ok_total (out : Option JSString) (alt : JSString) :
    ∃ text, trimmedOr out (.ok alt : Except JSError JSString) = .ok text := by
  unfold trimmedOr
  cases out with
  | none => exact ⟨_, rfl⟩
  | some t =>
    simp only
    split
    · exact ⟨_, rfl⟩
    · exact ⟨_, rfl⟩

/-- POST /api/hint always responds, and its hint is a non-empty string. -/
theorem hintHandler_responds (h : Host) (up : CreateParams → Outcome) (body : JSValue) :
    ∃ r, hintHandler h up body = some r ∧ r.hint ≠ [] := by
  have hcatch : utf16 "Junta la consonante con la vocal 🙂" ≠ [] := by decide
  have hempty : utf16 "Junta la consonante con su vocal 😊" ≠ [] := by decide
  unfold hintHandler callUpstream
  dsimp only
  cases hintParams h (bodyOrEmpty body) with
  | error e => exact ⟨_, rfl, hcatch⟩
  | ok p =>
    dsimp only
    cases up p with
    | throws => exact ⟨_, rfl, hcatch⟩
    | returns out =>
      dsimp only
      obtain ⟨text, htext⟩ := trimmedOr_ok_total out (utf16 "Junta la consonante con su vocal 😊")
      rw [htext]
      exact ⟨_, rfl, ne_nil_of_trimmedOr hempty htext⟩

/-- POST /api/math/hint always responds, and its hint is a non-empty string. -/
theorem mathHintHandler_responds (h : Host) (up : CreateParams → Outcome) (body : JSValue) :
    ∃ r, mathHintHandler h up body = some r ∧ r.hint ≠ [] := by
  have hfix : utf16 "Cuenta despacito con tu dedo: uno, dos, tres…" ≠ [] := by decide
  unfold mathHintHandler callUpstream
  dsimp only
  cases mathParams h (bodyOrEmpty body) with
  | error e => exact ⟨_, rfl, hfix⟩
  | ok p =>
    dsimp only
    cases up p with
    | throws => exact ⟨_, rfl, hfix⟩
    | returns out =>
      dsimp only
      obtain ⟨text, htext⟩ :=
        trimmedOr_ok_total out (utf16 "Cuenta despacito con tu dedo: uno, dos, tres…")
      rw [htext]
      exact ⟨_, rfl, ne_nil_of_trimmedOr hfix htext⟩

/-- POST /api/match/hint responds, with a non-empty hint, whenever
`String(targetWord)` does not throw. -/
theorem matchHintHandler_responds (h : Host) (up : CreateParams → Outcome) (body : JSValue)
    (w : JSString)
    (hw : toJSString h (getProp (bodyOrEmpty body) (utf16 "targetWord")) = .ok w) :
    ∃ r, matchHintHandler h up body = some r ∧ r.hint ≠ [] := by
  have hfb : matchFallback h (getProp (bodyOrEmpty body) (utf16 "targetWord"))
      = .ok (utf16 "Empieza con \"" ++ h.toUpperCase (charAt w 0) ++ utf16 "\".") := by
    simp only [matchFallback, hw]
  have hne : utf16 "Empieza con \"" ++ h.toUpperCase (charAt w 0) ++ utf16 "\"." ≠ [] := by
    have : utf16 "\"." ≠ [] := by decide
    simp [this]
  unfold matchHintHandler callUpstream
  dsimp only
  rw [hfb]
  cases matchParams h (bodyOrEmpty body) with
  | error e => exact ⟨_, rfl, hne⟩
  | ok p =>
    dsimp only
    cases up p with
    | throws => exact ⟨_, rfl, hne⟩
    | returns out =>
      dsimp only
      obtain ⟨text, htext⟩ := trimmedOr_ok_total out
        (utf16 "Empieza con \"" ++ h.toUpperCase (charAt w 0) ++ utf16 "\".")
      rw [htext]
      exact ⟨_, rfl, ne_nil_of_trimmedOr hne htext⟩

/-- POST /api/match/hint sends no response whenever `String(targetWord)`
throws: the prompt cannot be built, and the `catch` block throws again. -/
theorem matchHintHandler_rejects (h : Host) (up : CreateParams → Outcome) (body : JSValue)
    (e : JSError)
    (hw : toJSString h (getProp (bodyOrEmpty body) (utf16 "targetWord")) = .error e) :
    matchHintHandler h up body = none := by
  unfold matchHintHandler
  simp only [matchParams, matchFallback, hw]

/-! ## The hint handlers: the claims -/

/-- C3: for POST /api/match/hint and every non-empty string `targetWord`, when
the upstream call throws or returns output that is absent, empty or
whitespace-only, the hint is `Empieza con "<c>".` where `<c>` is the first
character (UTF-16 code unit) of `targetWord`, upper-cased. -/
theorem match_hint_fallback (h : Host) (up : CreateParams → Outcome) (body : JSValue)
    (c : Nat) (rest : JSString)
    (hword : getProp (bodyOrEmpty body) (utf16 "targetWord") = .string (c :: rest))
    (hfail : ∀ p, matchParams h (bodyOrEmpty body) = .ok p →
      up p = .throws ∨ up p = .returns none ∨
        ∃ t, up p = .returns (some t) ∧ whitespaceOnly t) :
    matchHintHandler h up body
      = some { hint := utf16 "Empieza con \"" ++ h.toUpperCase [c] ++ utf16 "\"." } := by
  have hfb : matchFallback h (getProp (bodyOrEmpty body) (utf16 "targetWord"))
      = .ok (utf16 "Empieza con \"" ++ h.toUpperCase [c] ++ utf16 "\".") := by
    rw [hword]
    rfl
  unfold matchHintHandler callUpstream
  dsimp only
  rw [hfb]
  cases hp : matchParams h (bodyOrEmpty body) with
  | error e => rfl
  | ok p =>
    dsimp only
    rcases hfail p hp with hup | hup | ⟨t, hup, ht⟩
    · rw [hup]
    · rw [hup]
      rfl
    · rw [hup]
      dsimp only
      rw [trimmedOr_of_blank (some t) _ (Or.inr ⟨t, rfl, ht⟩)]

/-- Witness of C3: `targetWord` is `sol` and the upstream call throws. -/
theorem match_hint_fallback_witness :
    matchHintHandler sampleHost (fun _ => .throws)
        (.object [(utf16 "targetWord", .string (utf16 "sol"))])
      = some { hint := utf16 "Empieza con \"S\"." } :=
  match_hint_fallback sampleHost (fun _ => .throws)
    (.object [(utf16 "targetWord", .string (utf16 "sol"))]) 115 [111, 108] rfl
    (fun _ _ => Or.inl rfl)

/-- C4 at the failing input: for the body `{"targetWord": {"toString": 0}}`
POST /api/match/hint sends no response, whatever the upstream call does. -/
theorem match_hint_no_response (h : Host) (up : CreateParams → Outcome) :
    matchHintHandler h up
      (.object [(utf16 "targetWord", .object [(utf16 "toString", .number (.fin 0))])])
      = none :=
  matchHintHandler_rejects h up _ .typeError rfl

/-- C5 at the failing input: for the empty body, POST /api/hint answers one
string when the upstream call throws and another one when the upstream output
is the empty string. -/
theorem hint_fallbacks_differ :
    hintHandler sampleHost (fun _ => .throws) (.object [])
      = some { hint := utf16 "Junta la consonante con la vocal 🙂" } ∧
    hintHandler sampleHost (fun _ => .returns (some [])) (.object [])
      = some { hint := utf16 "Junta la consonante con su vocal 😊" } ∧
    hintHandler sampleHost (fun _ => .throws) (.object [])
      ≠ hintHandler sampleHost (fun _ => .returns (some [])) (.object []) := by
  refine ⟨rfl, rfl, ?_⟩
  decide

/-- C8: for POST /api/math/hint and every request body, when the upstream call
throws or returns output that is absent, empty or whitespace-only, the hint is
the sentence `Cuenta despacito con tu dedo: uno, dos, tres…`; when `options` is
not an array, building the prompt throws before the upstream call and the hint
is the same sentence. -/
theorem math_hint_fallback (h : Host) (up : CreateParams → Outcome) (body : JSValue) :
    ((∀ p, mathParams h (bodyOrEmpty body) = .ok p →
        up p = .throws ∨ up p = .returns none ∨
          ∃ t, up p = .returns (some t) ∧ whitespaceOnly t) →
      mathHintHandler h up body
        = some { hint := utf16 "Cuenta despacito con tu dedo: uno, dos, tres…" }) ∧
    (isArray (withDefaultEmptyArray (getProp (bodyOrEmpty body) (utf16 "options"))) = false →
      (∃ e, mathParams h (bodyOrEmpty body) = .error e) ∧
      mathHintHandler h up body
        = some { hint := utf16 "Cuenta despacito con tu dedo: uno, dos, tres…" }) := by
  have key : (∀ p, mathParams h (bodyOrEmpty body) = .ok p →
        up p = .throws ∨ up p = .returns none ∨
          ∃ t, up p = .returns (some t) ∧ whitespaceOnly t) →
      mathHintHandler h up body
        = some { hint := utf16 "Cuenta despacito con tu dedo: uno, dos, tres…" } := by
    intro hfail
    unfold mathHintHandler callUpstream
    dsimp only
    cases hp : mathParams h (bodyOrEmpty body) with
    | error e => rfl
    | ok p =>
      dsimp only
      rcases hfail p hp with hup | hup | ⟨t, hup, ht⟩
      · rw [hup]
      · rw [hup]
        rfl
      · rw [hup]
        dsimp only
        rw [trimmedOr_of_blank (some t) _ (Or.inr ⟨t, rfl, ht⟩)]
  refine ⟨key, ?_⟩
  intro hnot
  have herr : ∃ e, mathParams h (bodyOrEmpty body) = .error e := by
    unfold mathParams
    dsimp only
    cases toJSString h (getProp (bodyOrEmpty body) (utf16 "targetNumber")) with
    | error e => exact ⟨e, rfl⟩
    | ok s =>
      dsimp only
      cases ho : withDefaultEmptyArray (getProp (bodyOrEmpty body) (utf16 "options")) with
      | array xs => rw [ho] at hnot; simp [isArray] at hnot
      | _ => exact ⟨.typeError, rfl⟩
  refine ⟨herr, key ?_⟩
  intro p hp
  obtain ⟨e, he⟩ := herr
  rw [he] at hp
  exact Except.noConfusion hp

/-- Witness of C8: the body `{"targetNumber": 3, "options": "abc"}`, whose
`options` is a string, with an upstream call that would return text. -/
theorem math_hint_fallback_witness :
    mathHintHandler sampleHost (fun _ => .returns (some (utf16 "Mira bien")))
        (.object [(utf16 "targetNumber", .number (.fin 3)),
                  (utf16 "options", .string (utf16 "abc"))])
      = some { hint := utf16 "Cuenta despacito con tu dedo: uno, dos, tres…" } :=
  ((math_hint_fallback sampleHost (fun _ => .returns (some (utf16 "Mira bien")))
      (.object [(utf16 "targetNumber", .number (.fin 3)),
                (utf16 "options", .string (utf16 "abc"))])).2 rfl).2

/-- C9: for each of the three hint handlers, whenever the upstream call is made
and returns a text `t` whose trimmed form is non-empty, the hint is `trim t`: it
starts and ends with a character that is not white space, and `t` is `trim t`
between two runs of white space. -/
theorem hints_return_trimmed_text (h : Host) (up : CreateParams → Outcome) (body : JSValue)
    (t : JSString) (ht : trim t ≠ []) :
    (∀ p, hintParams h (bodyOrEmpty body) = .ok p → up p = .returns (some t) →
      hintHandler h up body = some { hint := trim t }) ∧
    (∀ p, matchParams h (bodyOrEmpty body) = .ok p → up p = .returns (some t) →
      matchHintHandler h up body = some { hint := trim t }) ∧
    (∀ p, mathParams h (bodyOrEmpty body) = .ok p → up p = .returns (some t) →
      mathHintHandler h up body = some { hint := trim t }) ∧
    (∀ c rest, trim t = c :: rest → isWhiteSpace c = false) ∧
    isWhiteSpace ((trim t).getLast ht) = false ∧
    ∃ pre post, t = pre ++ trim t ++ post ∧ whitespaceOnly pre ∧ whitespaceOnly post := by
  refine ⟨?_, ?_, ?_, trim_first_not_whiteSpace t, trim_last_not_whiteSpace t ht, trim_split t⟩
  · intro p hp hup
    unfold hintHandler callUpstream
    simp only [hp, hup, trimmedOr_of_text t _ ht]
  · intro p hp hup
    unfold matchHintHandler callUpstream
    simp only [hp, hup, trimmedOr_of_text t _ ht]
  · intro p hp hup
    unfold mathHintHandler callUpstream
    simp only [hp, hup, trimmedOr_of_text t _ ht]

/-- Witness of C9: the three handlers on sample bodies, with an upstream call
that returns the text `  Cuenta bien \n`. -/
theorem hints_return_trimmed_text_witness :
    hintHandler sampleHost (fun _ => .returns (some (utf16 "  Cuenta bien \n")))
        (.object [(utf16 "targetSyllable", .string (utf16 "MA"))])
      = some { hint := utf16 "Cuenta bien" } ∧
    matchHintHandler sampleHost (fun _ => .returns (some (utf16 "  Cuenta bien \n")))
        (.object [(utf16 "targetSyllable", .string (utf16 "MA"))])
      = some { hint := utf16 "Cuenta bien" } ∧
    mathHintHandler sampleHost (fun _ => .returns (some (utf16 "  Cuenta bien \n")))
        (.object [(utf16 "targetSyllable", .string (utf16 "MA"))])
      = some { hint := utf16 "Cuenta bien" } :=
  have hw := hints_return_trimmed_text sampleHost
    (fun _ => .returns (some (utf16 "  Cuenta bien \n")))
    (.object [(utf16 "targetSyllable", .string (utf16 "MA"))])
    (utf16 "  Cuenta bien \n") (by decide)
  ⟨hw.1 _ rfl rfl, hw.2.1 _ rfl rfl, hw.2.2.1 _ rfl rfl⟩

end Gateway
